import Mathlib

/-!
Shallow embedding of the Bedrock Knowledge Base teardown core:

* the cleanup Lambda (`backoffDelay`, `waitUntil`, `isNotFoundError`,
  `resolveDataSourceId`, `handler`) — the asynchronous AWS calls are modelled
  by an oracle (`CleanupOracle`) that fixes the outcome of every remote call,
  `Date.now()` is a natural-number millisecond clock advanced only by sleeps,
  `Math.random()` is an explicit jitter stream `ℕ → ℚ`, and the unbounded
  `while` loop of `waitUntil` is driven by explicit fuel (a run that exhausts
  fuel is reported as the distinguished artefact `fuelOut`, never confused
  with a genuine timeout or return);
* the construct-time validation `validateModelDimensionCompatibility` and the
  order of resource definition inside the construct's constructor
  (`constructModel`).

JavaScript string operations (`includes`, `startsWith`, `toLowerCase`) are
modelled character-by-character on `List Char` so that every definition is
executable by the kernel.
-/

/-- JS `pat` is a leading block of `l` (helper for `String.prototype.startsWith`). -/
def listHasPre : List Char → List Char → Bool
  | [], _ => true
  | _ :: _, [] => false
  | c :: cs, d :: ds => c == d && listHasPre cs ds

/-- JS `String.prototype.includes`: `pat` occurs contiguously inside `l`. -/
def listContainsSub (pat : List Char) : List Char → Bool
  | [] => listHasPre pat []
  | l@(_ :: ds) => listHasPre pat l || listContainsSub pat ds

/-- `s.includes(pat)` of JavaScript. -/
def strContains (s pat : String) : Bool := listContainsSub pat.toList s.toList

/-- `s.startsWith(pre)` of JavaScript. -/
def strStartsWith (s pre : String) : Bool := listHasPre pre.toList s.toList

/-- An error object thrown by an AWS SDK call: `message` and `name` fields. -/
structure AwsError where
  message : String
  name : String
deriving DecidableEq

/-- Source `isNotFoundError` (src/bin/app.ts lines 485-492): lower-case the
error's `message || name || ""` and test the three substrings. -/
def isNotFoundError (e : AwsError) : Bool :=
  let m := (if e.message = "" then e.name else e.message).toList.map Char.toLower
  listContainsSub "not found".toList m ||
    listContainsSub "notfound".toList m ||
    listContainsSub "resourcenotfound".toList m

/-- The pre-jitter exponential schedule `Math.min(maxMs, baseMs * 2 ** attempt)`
of source `backoffDelay` (src/bin/app.ts lines 448-452). -/
def expPart (attempt baseMs maxMs : ℕ) : ℕ := min maxMs (baseMs * 2 ^ attempt)

/-- Source `backoffDelay`: `Math.floor(exp * (0.5 + Math.random() * 0.5))`,
with the `Math.random()` draw made explicit as the rational `r`. -/
def backoffDelay (attempt baseMs maxMs : ℕ) (r : ℚ) : ℤ :=
  ⌊(expPart attempt baseMs maxMs : ℚ) * (1 / 2 + r * (1 / 2))⌋

/-- Observable actions of one cleanup invocation, in execution order:
AWS API calls, the entry into a `waitUntil` loop (recording the deadline the
call site passed), and sleeps (start time and duration). -/
inductive Ev where
  | listDataSources
  | waitCall (description : String) (deadline : ℕ)
  | slept (start dur : ℕ)
  | listIngestionJobs
  | deleteDataSource
  | getDataSource
  | deleteKnowledgeBase
  | getKnowledgeBase
deriving DecidableEq

/-- Outcome of a `waitUntil` loop: a value satisfying the predicate, the
thrown `Timeout waiting for ...` error, or model-fuel exhaustion. -/
inductive WaitResult (α : Type) where
  | ok (a : α)
  | timeout
  | fuelOut
deriving DecidableEq

/-- A `waitUntil` run: its result, number of `fn` invocations, the emitted
trace (one call event per attempt, interleaved with sleeps), and the clock
value when the loop returned or threw. -/
structure WaitOut (α : Type) where
  result : WaitResult α
  calls : ℕ
  trace : List Ev
  endMs : ℕ
deriving DecidableEq

/-- One loop body attempt: `fn` succeeded and its result satisfies the
predicate (loop returns), otherwise (predicate false, or `fn` threw and was
caught and logged) the loop keeps going. -/
def attemptDone {α : Type} (r : Except AwsError α) (pred : α → Bool) : Option α :=
  match r with
  | .ok a => if pred a then some a else none
  | .error _ => none

/-- Source `waitUntil` (src/bin/app.ts lines 454-482), fuelled.  State:
remaining fuel, the `attempt` counter, and the current clock `t`.  While
`t < deadlineMs`: run `fn`, return on predicate success; otherwise increment
`attempt`, sleep `backoffDelay(attempt)` milliseconds (base 1000 ms, ceiling
10000 ms — the source's defaults) with jitter drawn from `jit`, and retry.
Once the clock check fails, throw the timeout. -/
def waitUntilAux {α : Type} (fn : ℕ → Except AwsError α) (pred : α → Bool)
    (deadlineMs : ℕ) (jit : ℕ → ℚ) (callEv : Ev) : ℕ → ℕ → ℕ → WaitOut α
  | 0, _, t => ⟨.fuelOut, 0, [], t⟩
  | fuel + 1, attempt, t =>
    if t < deadlineMs then
      match attemptDone (fn attempt) pred with
      | some a => ⟨.ok a, 1, [callEv], t⟩
      | none =>
        let d := (backoffDelay (attempt + 1) 1000 10000 (jit (attempt + 1))).toNat
        let rest := waitUntilAux fn pred deadlineMs jit callEv fuel (attempt + 1) (t + d)
        ⟨rest.result, rest.calls + 1, callEv :: .slept t d :: rest.trace, rest.endMs⟩
    else ⟨.timeout, 0, [], t⟩

/-- `waitUntil` entered with `attempt = 0` at clock `startMs`. -/
def waitUntil {α : Type} (fn : ℕ → Except AwsError α) (pred : α → Bool)
    (deadlineMs : ℕ) (jit : ℕ → ℚ) (callEv : Ev) (fuel startMs : ℕ) : WaitOut α :=
  waitUntilAux fn pred deadlineMs jit callEv fuel 0 startMs

/-- One entry of `ListDataSources`' `dataSourceSummaries` (`name` may be absent). -/
structure DSSummary where
  name : Option String
  dataSourceId : String
deriving DecidableEq

/-- One entry of `ListIngestionJobs`' `ingestionJobSummaries`. -/
structure JobSummary where
  status : String
deriving DecidableEq

/-- Outcome of a `DeleteDataSource` / `DeleteKnowledgeBase` call. -/
inductive DeleteOutcome where
  | ok
  | err (e : AwsError)
deriving DecidableEq

/-- Outcome of a `GetDataSource` / `GetKnowledgeBase` call: the resource was
returned, or the call threw. -/
inductive GetOutcome where
  | found
  | err (e : AwsError)
deriving DecidableEq

/-- The `CleanupEvent` payload of the handler (`dataSourceNamePre` models the
optional `dataSourceNamePrefix` field; `region` is irrelevant to control flow
and omitted). -/
structure CleanupEvent where
  knowledgeBaseId : String
  dataSourceNamePre : Option String := none
  pollSeconds : Option ℕ := none
  maxMinutes : Option ℕ := none
deriving DecidableEq

/-- Environment of one handler invocation: the outcome of every remote call
(polling calls indexed by attempt number) and the jitter stream of each
`waitUntil` loop. -/
structure CleanupOracle where
  listDS : Except AwsError (List DSSummary)
  listJobs : ℕ → Except AwsError (List JobSummary)
  jobsJit : ℕ → ℚ
  deleteDS : DeleteOutcome
  getDS : ℕ → GetOutcome
  dsJit : ℕ → ℚ
  deleteKB : DeleteOutcome
  getKB : ℕ → GetOutcome
  kbJit : ℕ → ℚ

/-- Filter of source `resolveDataSourceId`: `ds.name?.startsWith(namePrefix)`
(an absent name never matches). -/
def dsMatchesPre (pre : String) (ds : DSSummary) : Bool :=
  match ds.name with
  | some n => strStartsWith n pre
  | none => false

/-- Source `resolveDataSourceId` (src/bin/app.ts lines 494-546) as a function
of the `ListDataSources` outcome.  With a (truthy, i.e. non-empty) name
filter: exactly one match returns its id, zero or several return `none`.
Without a filter the same rule applies to the whole listing.  A not-found
error from the listing resolves to `none`; any other error propagates. -/
def resolveDataSourceId (listResult : Except AwsError (List DSSummary))
    (namePre : Option String) : Except AwsError (Option String) :=
  match listResult with
  | .ok dataSources =>
    match namePre with
    | some pre =>
      if pre = "" then
        if dataSources.length = 1 then .ok (dataSources.head?.map (·.dataSourceId))
        else .ok none
      else
        let matching := dataSources.filter (dsMatchesPre pre)
        if matching.length = 1 then .ok (matching.head?.map (·.dataSourceId))
        else .ok none
    | none =>
      if dataSources.length = 1 then .ok (dataSources.head?.map (·.dataSourceId))
      else .ok none
  | .error e => if isNotFoundError e then .ok none else .error e

/-- The candidate set the resolution rule judges: the listing filtered by the
name filter when one is (truthily) given, the whole listing otherwise. -/
def matchingOf (dataSources : List DSSummary) (namePre : Option String) :
    List DSSummary :=
  match namePre with
  | some pre => if pre = "" then dataSources else dataSources.filter (dsMatchesPre pre)
  | none => dataSources

/-- Step-2 polling body: list ingestion jobs and report whether some summary
has `status === "IN_PROGRESS"`; an SDK error propagates to `waitUntil`'s catch. -/
def jobsFn (o : CleanupOracle) : ℕ → Except AwsError Bool := fun k =>
  (o.listJobs k).map (fun jobs => jobs.any (fun j => j.status == "IN_PROGRESS"))

/-- Confirm-gone polling body (src/bin/app.ts lines 624-644 and 666-685): a
successful get means "still exists" (`gone = false`), a not-found error means
"gone" (`gone = true`), any other error is swallowed as "not gone yet".  It
never throws. -/
def confirmStep (g : GetOutcome) : Except AwsError Bool :=
  match g with
  | .found => .ok false
  | .err e => if isNotFoundError e then .ok true else .ok false

/-- Confirm-gone polling body over a get oracle. -/
def confirmFn (g : ℕ → GetOutcome) : ℕ → Except AwsError Bool := fun k => confirmStep (g k)

/-- Whether a get outcome is a not-found error (the condition under which a
confirm poll reports the resource gone). -/
def isNotFoundGet : GetOutcome → Bool
  | .found => false
  | .err e => isNotFoundError e

/-- The delete-with-tolerance pattern of steps 3 and 4: a not-found error is
swallowed (treated as success), any other error is re-thrown. -/
def tolerantDelete (r : DeleteOutcome) : Except AwsError Unit :=
  match r with
  | .ok => .ok ()
  | .err e => if isNotFoundError e then .ok () else .error e

/-- Result of the handler's `try` block: completion, a thrown AWS error, the
thrown `waitUntil` timeout, or model-fuel exhaustion. -/
inductive InnerResult where
  | done
  | threw (e : AwsError)
  | timedOut (description : String)
  | fuelOut
deriving DecidableEq

/-- A run of the handler's `try` block: result, trace and final clock. -/
structure InnerOut where
  result : InnerResult
  trace : List Ev
  endMs : ℕ
deriving DecidableEq

/-- `waitUntil` description string of step 2. -/
def jobsDesc : String := "ingestion jobs to complete"

/-- `waitUntil` description string of the data-source confirmation. -/
def dsDesc : String := "data source deletion"

/-- `waitUntil` description string of the knowledge-base confirmation. -/
def kbDesc : String := "knowledge base deletion"

/-- Steps 4-5 of the handler: issue `DeleteKnowledgeBase` (tolerating
not-found), then poll `GetKnowledgeBase` until it reports not-found. -/
def kbPhase (o : CleanupOracle) (deadlineMs fuel t : ℕ) : InnerOut :=
  match tolerantDelete o.deleteKB with
  | .error e => ⟨.threw e, [.deleteKnowledgeBase], t⟩
  | .ok _ =>
    let w := waitUntil (confirmFn o.getKB) (fun gone => gone) deadlineMs o.kbJit
      .getKnowledgeBase fuel t
    let res : InnerResult :=
      match w.result with
      | .ok _ => .done
      | .timeout => .timedOut kbDesc
      | .fuelOut => .fuelOut
    ⟨res, .deleteKnowledgeBase :: .waitCall kbDesc deadlineMs :: w.trace, w.endMs⟩

/-- Steps 2-5 of the handler when a data source was uniquely resolved: wait
for ingestion jobs to go idle, issue `DeleteDataSource` (tolerating
not-found), poll `GetDataSource` until not-found, then run `kbPhase`. -/
def childThenKb (o : CleanupOracle) (deadlineMs fuel t : ℕ) : InnerOut :=
  let w1 := waitUntil (jobsFn o) (fun active => !active) deadlineMs o.jobsJit
    .listIngestionJobs fuel t
  match w1.result with
  | .fuelOut => ⟨.fuelOut, .waitCall jobsDesc deadlineMs :: w1.trace, w1.endMs⟩
  | .timeout => ⟨.timedOut jobsDesc, .waitCall jobsDesc deadlineMs :: w1.trace, w1.endMs⟩
  | .ok _ =>
    match tolerantDelete o.deleteDS with
    | .error e =>
      ⟨.threw e, .waitCall jobsDesc deadlineMs :: (w1.trace ++ [.deleteDataSource]),
        w1.endMs⟩
    | .ok _ =>
      let w2 := waitUntil (confirmFn o.getDS) (fun gone => gone) deadlineMs o.dsJit
        .getDataSource fuel w1.endMs
      match w2.result with
      | .fuelOut =>
        ⟨.fuelOut, .waitCall jobsDesc deadlineMs ::
          (w1.trace ++ .deleteDataSource :: .waitCall dsDesc deadlineMs :: w2.trace),
          w2.endMs⟩
      | .timeout =>
        ⟨.timedOut dsDesc, .waitCall jobsDesc deadlineMs ::
          (w1.trace ++ .deleteDataSource :: .waitCall dsDesc deadlineMs :: w2.trace),
          w2.endMs⟩
      | .ok _ =>
        let k := kbPhase o deadlineMs fuel w2.endMs
        ⟨k.result, .waitCall jobsDesc deadlineMs ::
          (w1.trace ++ .deleteDataSource :: .waitCall dsDesc deadlineMs ::
            (w2.trace ++ k.trace)),
          k.endMs⟩

/-- JS truthiness of the resolved id: the child phases run only under
`if (dataSourceId)`, so an absent or empty-string id skips them. -/
def dsTruthy : Option String → Bool
  | none => false
  | some s => !(s == "")

/-- The handler's `try` block (src/bin/app.ts lines 573-690): resolve the
data source; when resolution yields a truthy id run the child phases then
the knowledge-base phases, otherwise skip straight to the knowledge-base
phases; a non-tolerated resolution error is thrown. -/
def innerRun (ev : CleanupEvent) (o : CleanupOracle) (startMs deadlineMs fuel : ℕ) :
    InnerOut :=
  match resolveDataSourceId o.listDS ev.dataSourceNamePre with
  | .error e => ⟨.threw e, [.listDataSources], startMs⟩
  | .ok dataSourceId =>
    if dsTruthy dataSourceId then
      let c := childThenKb o deadlineMs fuel startMs
      ⟨c.result, .listDataSources :: c.trace, c.endMs⟩
    else
      let k := kbPhase o deadlineMs fuel startMs
      ⟨k.result, .listDataSources :: k.trace, k.endMs⟩

/-- What the Lambda invocation produces: the returned value `{ ok }`, a
thrown error (escaping the handler), or model-fuel exhaustion. -/
inductive HandlerResult where
  | returned (ok : Bool)
  | threw (message : String)
  | fuelOut
deriving DecidableEq

/-- A full handler invocation: caller-visible result, trace, final clock. -/
structure HandlerOut where
  result : HandlerResult
  trace : List Ev
  endMs : ℕ
deriving DecidableEq

/-- Source `handler` (src/bin/app.ts lines 548-697).  An empty (falsy)
`knowledgeBaseId` throws before the `try` block.  Otherwise the absolute
deadline is computed once — `Date.now() + (maxMinutes ?? 15) * 60_000` — the
`try` block runs against it, and the `catch` converts every internal failure
(thrown error or timeout) into the same `{ ok: true }` the success path
returns. -/
def handler (ev : CleanupEvent) (o : CleanupOracle) (startMs fuel : ℕ) : HandlerOut :=
  if ev.knowledgeBaseId = "" then ⟨.threw "knowledgeBaseId is required", [], startMs⟩
  else
    let maxMinutes := ev.maxMinutes.getD 15
    let deadlineMs := startMs + maxMinutes * 60000
    let inner := innerRun ev o startMs deadlineMs fuel
    match inner.result with
    | .fuelOut => ⟨.fuelOut, inner.trace, inner.endMs⟩
    | .done => ⟨.returned true, inner.trace, inner.endMs⟩
    | .threw _ => ⟨.returned true, inner.trace, inner.endMs⟩
    | .timedOut _ => ⟨.returned true, inner.trace, inner.endMs⟩

/-- Source `validateModelDimensionCompatibility`
(src/infra/constructs/s3-to-s3-vectors-knowledge-base.ts lines 687-716):
a v2 Titan ARN requires dimension 1024, otherwise a v1 Titan ARN requires
1536, otherwise the dimension must be 1024 or 1536. -/
def validateModelDimensionCompatibility (embeddingModelArn : String)
    (vectorDimension : ℕ) : Except String Unit :=
  if strContains embeddingModelArn "titan-embed-text-v2" then
    if vectorDimension ≠ 1024 then
      .error ("Titan Embed Text v2 model requires 1024 dimensions, but got " ++
        toString vectorDimension ++ ". Please set vectorDimension to 1024 or use a " ++
        "different embedding model.")
    else .ok ()
  else if strContains embeddingModelArn "titan-embed-text-v1" then
    if vectorDimension ≠ 1536 then
      .error ("Titan Embed Text v1 model requires 1536 dimensions, but got " ++
        toString vectorDimension ++ ". Please set vectorDimension to 1536 or use a " ++
        "different embedding model.")
    else .ok ()
  else if vectorDimension ≠ 1024 ∧ vectorDimension ≠ 1536 then
    .error ("vectorDimension must be 1024 (Titan v2) or 1536 (Titan v1), but got " ++
      toString vectorDimension ++ ". Ensure your embedding model and vector " ++
      "dimensions are compatible.")
  else .ok ()

/-- Default embedding model ARN (`getEmbeddingModelArn`). -/
def getEmbeddingModelArn (region : String) : String :=
  "arn:aws:bedrock:" ++ region ++ "::foundation-model/amazon.titan-embed-text-v2:0"

/-- The constructor inputs that matter to validation and to which resource
constructs get defined. -/
structure ConstructProps where
  knowledgeBaseRoleProvided : Bool := false
  ingestionBucketProvided : Bool := false
  vectorDimension : Option ℕ := none
  embeddingModelArn : Option String := none
deriving DecidableEq

/-- Outcome of running the construct's constructor: the resource constructs
defined, in definition order, or the validation error. -/
structure ConstructOut where
  definedResources : List String
  errorMsg : Option String
deriving DecidableEq

/-- The constructor of `S3ToS3VectorsKnowledgeBase`
(src/infra/constructs/s3-to-s3-vectors-knowledge-base.ts lines 81-191),
reduced to what decides claim C10: defaults are applied
(`vectorDimension ?? 1024`, `embeddingModelArn ?? getEmbeddingModelArn`),
validation runs, and only if it passes are the resource constructs defined,
in the source's order. -/
def constructModel (props : ConstructProps) (region : String) : ConstructOut :=
  let vectorDimension := props.vectorDimension.getD 1024
  let embeddingModelArn := props.embeddingModelArn.getD (getEmbeddingModelArn region)
  match validateModelDimensionCompatibility embeddingModelArn vectorDimension with
  | .error m => ⟨[], some m⟩
  | .ok _ =>
    ⟨(if props.ingestionBucketProvided then [] else ["IngestionBucket"]) ++
      (if props.knowledgeBaseRoleProvided then [] else ["KnowledgeBaseRole"]) ++
      ["S3VectorsBucket", "S3VectorsIndex", "KnowledgeBase", "DataSource",
        "CleanupFinalizer"], none⟩

/-! ### Generic lemmas about the polling loop -/

theorem attemptDone_some {α : Type} {r : Except AwsError α} {pred : α → Bool} {a : α}
    (h : attemptDone r pred = some a) : r = .ok a ∧ pred a = true := by
  cases r with
  | ok b =>
    by_cases hp : pred b = true
    · simp [attemptDone, hp] at h
      subst h
      exact ⟨rfl, hp⟩
    · simp [attemptDone, Bool.eq_false_iff.mpr hp] at h
  | error e => simp [attemptDone] at h

theorem waitUntilAux_timeout_le {α : Type} (fn : ℕ → Except AwsError α) (pred : α → Bool)
    (deadlineMs : ℕ) (jit : ℕ → ℚ) (callEv : Ev) :
    ∀ fuel attempt t,
      (waitUntilAux fn pred deadlineMs jit callEv fuel attempt t).result = .timeout →
      deadlineMs ≤ (waitUntilAux fn pred deadlineMs jit callEv fuel attempt t).endMs
  | 0, a, t => by simp [waitUntilAux]
  | fuel + 1, a, t => by
    intro h
    unfold waitUntilAux at h ⊢
    by_cases ht : t < deadlineMs
    · simp only [if_pos ht] at h ⊢
      cases hd : attemptDone (fn a) pred with
      | some x => simp [hd] at h
      | none =>
        simp only [hd] at h ⊢
        exact waitUntilAux_timeout_le fn pred deadlineMs jit callEv fuel (a + 1) _ h
    · simp only [if_neg ht] at h ⊢
      omega

theorem waitUntilAux_ok {α : Type} (fn : ℕ → Except AwsError α) (pred : α → Bool)
    (deadlineMs : ℕ) (jit : ℕ → ℚ) (callEv : Ev) :
    ∀ fuel attempt t x,
      (waitUntilAux fn pred deadlineMs jit callEv fuel attempt t).result = .ok x →
      pred x = true ∧ ∃ k, fn k = .ok x
  | 0, a, t, x => by simp [waitUntilAux]
  | fuel + 1, a, t, x => by
    intro h
    unfold waitUntilAux at h
    by_cases ht : t < deadlineMs
    · simp only [if_pos ht] at h
      cases hd : attemptDone (fn a) pred with
      | some y =>
        simp only [hd] at h
        obtain ⟨hfn, hp⟩ := attemptDone_some hd
        cases h
        exact ⟨hp, a, hfn⟩
      | none =>
        simp only [hd] at h
        exact waitUntilAux_ok fn pred deadlineMs jit callEv fuel (a + 1) _ x h
    · simp only [if_neg ht] at h
      cases h

theorem waitUntilAux_trace_mem {α : Type} (fn : ℕ → Except AwsError α) (pred : α → Bool)
    (deadlineMs : ℕ) (jit : ℕ → ℚ) (callEv : Ev) :
    ∀ fuel attempt t e,
      e ∈ (waitUntilAux fn pred deadlineMs jit callEv fuel attempt t).trace →
      e = callEv ∨ ∃ s d, e = .slept s d
  | 0, a, t, e => by simp [waitUntilAux]
  | fuel + 1, a, t, e => by
    intro h
    unfold waitUntilAux at h
    by_cases ht : t < deadlineMs
    · simp only [if_pos ht] at h
      cases hd : attemptDone (fn a) pred with
      | some x =>
        simp only [hd, List.mem_singleton] at h
        exact Or.inl h
      | none =>
        simp only [hd, List.mem_cons] at h
        rcases h with h | h | h
        · exact Or.inl h
        · exact Or.inr ⟨_, _, h⟩
        · exact waitUntilAux_trace_mem fn pred deadlineMs jit callEv fuel (a + 1) _ e h
    · simp only [if_neg ht] at h
      simp at h

/-! ### Resolution lemmas -/

theorem resolveDataSourceId_ok (l : List DSSummary) (namePre : Option String) :
    resolveDataSourceId (.ok l) namePre =
      (if (matchingOf l namePre).length = 1 then
        .ok ((matchingOf l namePre).head?.map (·.dataSourceId))
      else .ok none) := by
  cases namePre with
  | none => simp [resolveDataSourceId, matchingOf]
  | some pre =>
    by_cases hp : pre = ""
    · simp [resolveDataSourceId, matchingOf, hp]
    · simp [resolveDataSourceId, matchingOf, hp]

theorem resolveDataSourceId_ok_of_not_single (l : List DSSummary)
    (namePre : Option String) (h : (matchingOf l namePre).length ≠ 1) :
    resolveDataSourceId (.ok l) namePre = .ok none := by
  rw [resolveDataSourceId_ok, if_neg h]

theorem resolveDataSourceId_notFound (e : AwsError) (namePre : Option String)
    (h : isNotFoundError e = true) :
    resolveDataSourceId (.error e) namePre = .ok none := by
  simp [resolveDataSourceId, h]

/-! ### Confirm-gone step lemmas -/

theorem confirmStep_eq (g : GetOutcome) : confirmStep g = .ok (isNotFoundGet g) := by
  cases g with
  | found => rfl
  | err e =>
    by_cases h : isNotFoundError e = true
    · simp [confirmStep, isNotFoundGet, h]
    · simp [confirmStep, isNotFoundGet, Bool.eq_false_iff.mpr h]

/-! ### Knowledge-base phase lemmas -/

theorem kbPhase_trace_mem (o : CleanupOracle) (deadlineMs fuel t : ℕ) (e : Ev)
    (h : e ∈ (kbPhase o deadlineMs fuel t).trace) :
    e = .deleteKnowledgeBase ∨ e = .waitCall kbDesc deadlineMs ∨
      e = .getKnowledgeBase ∨ ∃ s d, e = .slept s d := by
  unfold kbPhase at h
  cases hdel : tolerantDelete o.deleteKB with
  | error e' =>
    simp only [hdel, List.mem_singleton] at h
    exact Or.inl h
  | ok u =>
    simp only [hdel, List.mem_cons] at h
    rcases h with h | h | h
    · exact Or.inl h
    · exact Or.inr (Or.inl h)
    · rcases waitUntilAux_trace_mem _ _ _ _ _ _ _ _ _ h with h' | ⟨s, d, h'⟩
      · exact Or.inr (Or.inr (Or.inl h'))
      · exact Or.inr (Or.inr (Or.inr ⟨s, d, h'⟩))

theorem kbPhase_deleteKB_mem (o : CleanupOracle) (deadlineMs fuel t : ℕ) :
    Ev.deleteKnowledgeBase ∈ (kbPhase o deadlineMs fuel t).trace := by
  unfold kbPhase
  cases hdel : tolerantDelete o.deleteKB with
  | error e' => simp
  | ok u => simp

/-! ### Child-then-knowledge-base phase lemmas -/

theorem childThenKb_trace_mem (o : CleanupOracle) (deadlineMs fuel t : ℕ) (e : Ev)
    (h : e ∈ (childThenKb o deadlineMs fuel t).trace) :
    e = .waitCall jobsDesc deadlineMs ∨ e = .waitCall dsDesc deadlineMs ∨
      e = .waitCall kbDesc deadlineMs ∨ e = .listIngestionJobs ∨
      e = .deleteDataSource ∨ e = .getDataSource ∨ e = .deleteKnowledgeBase ∨
      e = .getKnowledgeBase ∨ ∃ s d, e = .slept s d := by
  unfold childThenKb at h
  cases h1 : (waitUntil (jobsFn o) (fun active => !active) deadlineMs o.jobsJit
      .listIngestionJobs fuel t).result with
  | fuelOut =>
    simp only [h1, List.mem_cons] at h
    rcases h with h | h
    · exact Or.inl h
    · rcases waitUntilAux_trace_mem _ _ _ _ _ _ _ _ _ h with h' | ⟨s, d, h'⟩
      · exact Or.inr (Or.inr (Or.inr (Or.inl h')))
      · exact Or.inr (Or.inr (Or.inr (Or.inr (Or.inr (Or.inr (Or.inr (Or.inr ⟨s, d, h'⟩)))))))
  | timeout =>
    simp only [h1, List.mem_cons] at h
    rcases h with h | h
    · exact Or.inl h
    · rcases waitUntilAux_trace_mem _ _ _ _ _ _ _ _ _ h with h' | ⟨s, d, h'⟩
      · exact Or.inr (Or.inr (Or.inr (Or.inl h')))
      · exact Or.inr (Or.inr (Or.inr (Or.inr (Or.inr (Or.inr (Or.inr (Or.inr ⟨s, d, h'⟩)))))))
  | ok a1 =>
    simp only [h1] at h
    cases h2 : tolerantDelete o.deleteDS with
    | error e' =>
      simp only [h2, List.mem_cons, List.mem_append, List.mem_singleton,
        List.not_mem_nil, or_false] at h
      rcases h with h | h | h
      · exact Or.inl h
      · rcases waitUntilAux_trace_mem _ _ _ _ _ _ _ _ _ h with h' | ⟨s, d, h'⟩
        · exact Or.inr (Or.inr (Or.inr (Or.inl h')))
        · exact Or.inr (Or.inr (Or.inr (Or.inr (Or.inr (Or.inr (Or.inr (Or.inr ⟨s, d, h'⟩)))))))
      · exact Or.inr (Or.inr (Or.inr (Or.inr (Or.inl h))))
    | ok u =>
      simp only [h2] at h
      cases h3 : (waitUntil (confirmFn o.getDS) (fun gone => gone) deadlineMs o.dsJit
          .getDataSource fuel (waitUntil (jobsFn o) (fun active => !active) deadlineMs
            o.jobsJit .listIngestionJobs fuel t).endMs).result with
      | fuelOut =>
        simp only [h3, List.mem_cons, List.mem_append] at h
        rcases h with h | h | h | h | h
        · exact Or.inl h
        · rcases waitUntilAux_trace_mem _ _ _ _ _ _ _ _ _ h with h' | ⟨s, d, h'⟩
          · exact Or.inr (Or.inr (Or.inr (Or.inl h')))
          · exact Or.inr (Or.inr (Or.inr (Or.inr (Or.inr (Or.inr (Or.inr (Or.inr ⟨s, d, h'⟩)))))))
        · exact Or.inr (Or.inr (Or.inr (Or.inr (Or.inl h))))
        · exact Or.inr (Or.inl h)
        · rcases waitUntilAux_trace_mem _ _ _ _ _ _ _ _ _ h with h' | ⟨s, d, h'⟩
          · exact Or.inr (Or.inr (Or.inr (Or.inr (Or.inr (Or.inl h')))))
          · exact Or.inr (Or.inr (Or.inr (Or.inr (Or.inr (Or.inr (Or.inr (Or.inr ⟨s, d, h'⟩)))))))
      | timeout =>
        simp only [h3, List.mem_cons, List.mem_append] at h
        rcases h with h | h | h | h | h
        · exact Or.inl h
        · rcases waitUntilAux_trace_mem _ _ _ _ _ _ _ _ _ h with h' | ⟨s, d, h'⟩
          · exact Or.inr (Or.inr (Or.inr (Or.inl h')))
          · exact Or.inr (Or.inr (Or.inr (Or.inr (Or.inr (Or.inr (Or.inr (Or.inr ⟨s, d, h'⟩)))))))
        · exact Or.inr (Or.inr (Or.inr (Or.inr (Or.inl h))))
        · exact Or.inr (Or.inl h)
        · rcases waitUntilAux_trace_mem _ _ _ _ _ _ _ _ _ h with h' | ⟨s, d, h'⟩
          · exact Or.inr (Or.inr (Or.inr (Or.inr (Or.inr (Or.inl h')))))
          · exact Or.inr (Or.inr (Or.inr (Or.inr (Or.inr (Or.inr (Or.inr (Or.inr ⟨s, d, h'⟩)))))))
      | ok a2 =>
        simp only [h3, List.mem_cons, List.mem_append] at h
        rcases h with h | h | h | h | h
        · exact Or.inl h
        · rcases waitUntilAux_trace_mem _ _ _ _ _ _ _ _ _ h with h' | ⟨s, d, h'⟩
          · exact Or.inr (Or.inr (Or.inr (Or.inl h')))
          · exact Or.inr (Or.inr (Or.inr (Or.inr (Or.inr (Or.inr (Or.inr (Or.inr ⟨s, d, h'⟩)))))))
        · exact Or.inr (Or.inr (Or.inr (Or.inr (Or.inl h))))
        · exact Or.inr (Or.inl h)
        · rcases h with h | h
          · rcases waitUntilAux_trace_mem _ _ _ _ _ _ _ _ _ h with h' | ⟨s, d, h'⟩
            · exact Or.inr (Or.inr (Or.inr (Or.inr (Or.inr (Or.inl h')))))
            · exact Or.inr (Or.inr (Or.inr (Or.inr (Or.inr (Or.inr (Or.inr (Or.inr ⟨s, d, h'⟩)))))))
          · rcases kbPhase_trace_mem _ _ _ _ _ h with h' | h' | h' | ⟨s, d, h'⟩
            · exact Or.inr (Or.inr (Or.inr (Or.inr (Or.inr (Or.inr (Or.inl h'))))))
            · exact Or.inr (Or.inr (Or.inl h'))
            · exact Or.inr (Or.inr (Or.inr (Or.inr (Or.inr (Or.inr (Or.inr (Or.inl h')))))))
            · exact Or.inr (Or.inr (Or.inr (Or.inr (Or.inr (Or.inr (Or.inr (Or.inr ⟨s, d, h'⟩)))))))

theorem confirm_ok_notFound (g : ℕ → GetOutcome) (deadlineMs fuel attempt t : ℕ)
    (jit : ℕ → ℚ) (callEv : Ev) (x : Bool)
    (h : (waitUntilAux (confirmFn g) (fun gone => gone) deadlineMs jit callEv
      fuel attempt t).result = .ok x) :
    x = true ∧ ∃ k e, g k = GetOutcome.err e ∧ isNotFoundError e = true := by
  obtain ⟨hp, k, hk⟩ := waitUntilAux_ok _ _ _ _ _ _ _ _ _ h
  refine ⟨hp, k, ?_⟩
  simp only [confirmFn] at hk
  rw [confirmStep_eq] at hk
  have hx : isNotFoundGet (g k) = x := by
    injection hk
  cases hg : g k with
  | found =>
    rw [hg] at hx
    rw [hp] at hx
    simp [isNotFoundGet] at hx
  | err e =>
    refine ⟨e, rfl, ?_⟩
    rw [hg] at hx
    rw [hp] at hx
    simpa [isNotFoundGet] using hx

theorem childThenKb_deleteKB_confirm (o : CleanupOracle) (deadlineMs fuel t : ℕ)
    (h : Ev.deleteKnowledgeBase ∈ (childThenKb o deadlineMs fuel t).trace) :
    ∃ k e, o.getDS k = GetOutcome.err e ∧ isNotFoundError e = true := by
  unfold childThenKb at h
  cases h1 : (waitUntil (jobsFn o) (fun active => !active) deadlineMs o.jobsJit
      .listIngestionJobs fuel t).result with
  | fuelOut =>
    simp only [h1, List.mem_cons] at h
    rcases h with h | h
    · exact absurd h (by simp)
    · rcases waitUntilAux_trace_mem _ _ _ _ _ _ _ _ _ h with h' | ⟨s, d, h'⟩ <;> simp at h'
  | timeout =>
    simp only [h1, List.mem_cons] at h
    rcases h with h | h
    · exact absurd h (by simp)
    · rcases waitUntilAux_trace_mem _ _ _ _ _ _ _ _ _ h with h' | ⟨s, d, h'⟩ <;> simp at h'
  | ok a1 =>
    simp only [h1] at h
    cases h2 : tolerantDelete o.deleteDS with
    | error e' =>
      simp only [h2, List.mem_cons, List.mem_append, List.mem_singleton,
        List.not_mem_nil, or_false] at h
      rcases h with h | h | h
      · exact absurd h (by simp)
      · rcases waitUntilAux_trace_mem _ _ _ _ _ _ _ _ _ h with h' | ⟨s, d, h'⟩ <;> simp at h'
      · exact absurd h (by simp)
    | ok u =>
      simp only [h2] at h
      cases h3 : (waitUntil (confirmFn o.getDS) (fun gone => gone) deadlineMs o.dsJit
          .getDataSource fuel (waitUntil (jobsFn o) (fun active => !active) deadlineMs
            o.jobsJit .listIngestionJobs fuel t).endMs).result with
      | fuelOut =>
        simp only [h3, List.mem_cons, List.mem_append] at h
        rcases h with h | h | h | h | h
        · exact absurd h (by simp)
        · rcases waitUntilAux_trace_mem _ _ _ _ _ _ _ _ _ h with h' | ⟨s, d, h'⟩ <;> simp at h'
        · exact absurd h (by simp)
        · exact absurd h (by simp)
        · rcases waitUntilAux_trace_mem _ _ _ _ _ _ _ _ _ h with h' | ⟨s, d, h'⟩ <;> simp at h'
      | timeout =>
        simp only [h3, List.mem_cons, List.mem_append] at h
        rcases h with h | h | h | h | h
        · exact absurd h (by simp)
        · rcases waitUntilAux_trace_mem _ _ _ _ _ _ _ _ _ h with h' | ⟨s, d, h'⟩ <;> simp at h'
        · exact absurd h (by simp)
        · exact absurd h (by simp)
        · rcases waitUntilAux_trace_mem _ _ _ _ _ _ _ _ _ h with h' | ⟨s, d, h'⟩ <;> simp at h'
      | ok a2 =>
        exact (confirm_ok_notFound o.getDS deadlineMs fuel 0 _ o.dsJit .getDataSource a2 h3).2

/-! ### Inner-run and handler lemmas -/

theorem innerRun_trace_mem (ev : CleanupEvent) (o : CleanupOracle)
    (startMs deadlineMs fuel : ℕ) (e : Ev)
    (h : e ∈ (innerRun ev o startMs deadlineMs fuel).trace) :
    e = .listDataSources ∨ e = .waitCall jobsDesc deadlineMs ∨
      e = .waitCall dsDesc deadlineMs ∨ e = .waitCall kbDesc deadlineMs ∨
      e = .listIngestionJobs ∨ e = .deleteDataSource ∨ e = .getDataSource ∨
      e = .deleteKnowledgeBase ∨ e = .getKnowledgeBase ∨ ∃ s d, e = .slept s d := by
  unfold innerRun at h
  cases hres : resolveDataSourceId o.listDS ev.dataSourceNamePre with
  | error e' =>
    simp only [hres, List.mem_singleton] at h
    exact Or.inl h
  | ok oId =>
    by_cases htr : dsTruthy oId = true
    · simp only [hres, if_pos htr, List.mem_cons] at h
      rcases h with h | h
      · exact Or.inl h
      · rcases childThenKb_trace_mem _ _ _ _ _ h with
          h' | h' | h' | h' | h' | h' | h' | h' | ⟨s, d, h'⟩
        · exact Or.inr (Or.inl h')
        · exact Or.inr (Or.inr (Or.inl h'))
        · exact Or.inr (Or.inr (Or.inr (Or.inl h')))
        · exact Or.inr (Or.inr (Or.inr (Or.inr (Or.inl h'))))
        · exact Or.inr (Or.inr (Or.inr (Or.inr (Or.inr (Or.inl h')))))
        · exact Or.inr (Or.inr (Or.inr (Or.inr (Or.inr (Or.inr (Or.inl h'))))))
        · exact Or.inr (Or.inr (Or.inr (Or.inr (Or.inr (Or.inr (Or.inr (Or.inl h')))))))
        · exact Or.inr (Or.inr (Or.inr (Or.inr (Or.inr (Or.inr (Or.inr (Or.inr (Or.inl h'))))))))
        · exact Or.inr (Or.inr (Or.inr (Or.inr (Or.inr (Or.inr (Or.inr (Or.inr (Or.inr ⟨s, d, h'⟩))))))))
    · simp only [hres, if_neg htr, List.mem_cons] at h
      rcases h with h | h
      · exact Or.inl h
      · rcases kbPhase_trace_mem _ _ _ _ _ h with h' | h' | h' | ⟨s, d, h'⟩
        · exact Or.inr (Or.inr (Or.inr (Or.inr (Or.inr (Or.inr (Or.inr (Or.inl h')))))))
        · exact Or.inr (Or.inr (Or.inr (Or.inl h')))
        · exact Or.inr (Or.inr (Or.inr (Or.inr (Or.inr (Or.inr (Or.inr (Or.inr (Or.inl h'))))))))
        · exact Or.inr (Or.inr (Or.inr (Or.inr (Or.inr (Or.inr (Or.inr (Or.inr (Or.inr ⟨s, d, h'⟩))))))))

theorem handler_empty (ev : CleanupEvent) (o : CleanupOracle) (startMs fuel : ℕ)
    (h : ev.knowledgeBaseId = "") :
    handler ev o startMs fuel = ⟨.threw "knowledgeBaseId is required", [], startMs⟩ := by
  unfold handler
  rw [if_pos h]

theorem handler_trace (ev : CleanupEvent) (o : CleanupOracle) (startMs fuel : ℕ)
    (h : ev.knowledgeBaseId ≠ "") :
    (handler ev o startMs fuel).trace =
      (innerRun ev o startMs (startMs + ev.maxMinutes.getD 15 * 60000) fuel).trace := by
  unfold handler
  rw [if_neg h]
  cases hr : (innerRun ev o startMs (startMs + ev.maxMinutes.getD 15 * 60000) fuel).result <;>
    simp [hr]

theorem handler_result_cases (ev : CleanupEvent) (o : CleanupOracle) (startMs fuel : ℕ)
    (h : ev.knowledgeBaseId ≠ "") :
    (handler ev o startMs fuel).result = .returned true ∨
      (handler ev o startMs fuel).result = .fuelOut := by
  unfold handler
  rw [if_neg h]
  cases hr : (innerRun ev o startMs (startMs + ev.maxMinutes.getD 15 * 60000) fuel).result <;>
    simp [hr]

theorem innerRun_ok_none (ev : CleanupEvent) (o : CleanupOracle)
    (startMs deadlineMs fuel : ℕ)
    (hres : resolveDataSourceId o.listDS ev.dataSourceNamePre = .ok none) :
    innerRun ev o startMs deadlineMs fuel =
      ⟨(kbPhase o deadlineMs fuel startMs).result,
        .listDataSources :: (kbPhase o deadlineMs fuel startMs).trace,
        (kbPhase o deadlineMs fuel startMs).endMs⟩ := by
  unfold innerRun
  rw [hres]
  simp [dsTruthy]

theorem innerRun_ok_some (ev : CleanupEvent) (o : CleanupOracle)
    (startMs deadlineMs fuel : ℕ) (dsId : String) (hne : dsId ≠ "")
    (hres : resolveDataSourceId o.listDS ev.dataSourceNamePre = .ok (some dsId)) :
    innerRun ev o startMs deadlineMs fuel =
      ⟨(childThenKb o deadlineMs fuel startMs).result,
        .listDataSources :: (childThenKb o deadlineMs fuel startMs).trace,
        (childThenKb o deadlineMs fuel startMs).endMs⟩ := by
  unfold innerRun
  rw [hres]
  simp [dsTruthy, hne]

/-! ### Concrete backoff values at jitter 0 -/

theorem backoffDelay_one : (backoffDelay 1 1000 10000 0).toNat = 1000 := by
  unfold backoffDelay expPart
  norm_num
  rfl

theorem backoffDelay_two : (backoffDelay 2 1000 10000 0).toNat = 2000 := by
  unfold backoffDelay expPart
  norm_num
  rfl

/-! ### Oracle congruence: the handler consults the delete outcomes only
through `tolerantDelete` -/

theorem kbPhase_tolerant_congr (lds : Except AwsError (List DSSummary))
    (ljobs : ℕ → Except AwsError (List JobSummary)) (jjit : ℕ → ℚ)
    (x₁ x₂ : DeleteOutcome) (getDS : ℕ → GetOutcome) (dsjit : ℕ → ℚ)
    (y₁ y₂ : DeleteOutcome) (getKB : ℕ → GetOutcome) (kbjit : ℕ → ℚ)
    (hy : tolerantDelete y₁ = tolerantDelete y₂) (deadlineMs fuel t : ℕ) :
    kbPhase ⟨lds, ljobs, jjit, x₁, getDS, dsjit, y₁, getKB, kbjit⟩ deadlineMs fuel t =
      kbPhase ⟨lds, ljobs, jjit, x₂, getDS, dsjit, y₂, getKB, kbjit⟩ deadlineMs fuel t := by
  unfold kbPhase
  dsimp only
  rw [hy]

theorem childThenKb_tolerant_congr (lds : Except AwsError (List DSSummary))
    (ljobs : ℕ → Except AwsError (List JobSummary)) (jjit : ℕ → ℚ)
    (x₁ x₂ : DeleteOutcome) (getDS : ℕ → GetOutcome) (dsjit : ℕ → ℚ)
    (y₁ y₂ : DeleteOutcome) (getKB : ℕ → GetOutcome) (kbjit : ℕ → ℚ)
    (hx : tolerantDelete x₁ = tolerantDelete x₂)
    (hy : tolerantDelete y₁ = tolerantDelete y₂) (deadlineMs fuel t : ℕ) :
    childThenKb ⟨lds, ljobs, jjit, x₁, getDS, dsjit, y₁, getKB, kbjit⟩ deadlineMs fuel t =
      childThenKb ⟨lds, ljobs, jjit, x₂, getDS, dsjit, y₂, getKB, kbjit⟩ deadlineMs fuel t := by
  unfold childThenKb jobsFn
  dsimp only
  rw [hx, kbPhase_tolerant_congr lds ljobs jjit x₁ x₂ getDS dsjit y₁ y₂ getKB kbjit hy]

theorem innerRun_tolerant_congr (ev : CleanupEvent)
    (lds : Except AwsError (List DSSummary))
    (ljobs : ℕ → Except AwsError (List JobSummary)) (jjit : ℕ → ℚ)
    (x₁ x₂ : DeleteOutcome) (getDS : ℕ → GetOutcome) (dsjit : ℕ → ℚ)
    (y₁ y₂ : DeleteOutcome) (getKB : ℕ → GetOutcome) (kbjit : ℕ → ℚ)
    (hx : tolerantDelete x₁ = tolerantDelete x₂)
    (hy : tolerantDelete y₁ = tolerantDelete y₂) (startMs deadlineMs fuel : ℕ) :
    innerRun ev ⟨lds, ljobs, jjit, x₁, getDS, dsjit, y₁, getKB, kbjit⟩ startMs deadlineMs fuel =
      innerRun ev ⟨lds, ljobs, jjit, x₂, getDS, dsjit, y₂, getKB, kbjit⟩ startMs deadlineMs fuel := by
  unfold innerRun
  dsimp only
  rw [childThenKb_tolerant_congr lds ljobs jjit x₁ x₂ getDS dsjit y₁ y₂ getKB kbjit hx hy,
    kbPhase_tolerant_congr lds ljobs jjit x₁ x₂ getDS dsjit y₁ y₂ getKB kbjit hy]

theorem handler_tolerant_congr (ev : CleanupEvent)
    (lds : Except AwsError (List DSSummary))
    (ljobs : ℕ → Except AwsError (List JobSummary)) (jjit : ℕ → ℚ)
    (x₁ x₂ : DeleteOutcome) (getDS : ℕ → GetOutcome) (dsjit : ℕ → ℚ)
    (y₁ y₂ : DeleteOutcome) (getKB : ℕ → GetOutcome) (kbjit : ℕ → ℚ)
    (hx : tolerantDelete x₁ = tolerantDelete x₂)
    (hy : tolerantDelete y₁ = tolerantDelete y₂) (startMs fuel : ℕ) :
    handler ev ⟨lds, ljobs, jjit, x₁, getDS, dsjit, y₁, getKB, kbjit⟩ startMs fuel =
      handler ev ⟨lds, ljobs, jjit, x₂, getDS, dsjit, y₂, getKB, kbjit⟩ startMs fuel := by
  unfold handler
  dsimp only
  rw [innerRun_tolerant_congr ev lds ljobs jjit x₁ x₂ getDS dsjit y₁ y₂ getKB kbjit hx hy]

/-! ### Concrete fixtures for witnesses and counterexamples -/

/-- An environment with an empty data-source listing, no ingestion jobs,
successful deletes, and gets that always still find the resource. -/
def quietOracle : CleanupOracle :=
  ⟨.ok [], fun _ => .ok [], fun _ => 0, .ok, fun _ => .found, fun _ => 0, .ok,
    fun _ => .found, fun _ => 0⟩

/-- A get oracle that always reports `ResourceNotFoundException`. -/
def goneGetOracle : ℕ → GetOutcome := fun _ => .err ⟨"ResourceNotFoundException", ""⟩

/-! ### C1 -/

/-- C1 counterexample: invoking the handler with an empty `knowledgeBaseId`
hits the validation `throw` that sits before the `try` block, so the
caller-visible outcome is a thrown error, not the `{ ok: true }` indicator
the claim promises for every invocation. -/
theorem c1_counterexample :
    (handler ⟨"", none, none, none⟩ quietOracle 0 1).result =
        HandlerResult.threw "knowledgeBaseId is required" ∧
      (handler ⟨"", none, none, none⟩ quietOracle 0 1).result ≠
        HandlerResult.returned true := by
  constructor
  · decide
  · decide

/-- C1 (amended): for every invocation whose `knowledgeBaseId` is non-empty,
the handler never lets an error escape, and whenever it returns, the value is
the success indicator `{ ok: true }` — even when the internal deletion
sequence threw or timed out, since the `catch` converts those into
`{ ok: true }` as well. -/
theorem c1_handler_always_ok (ev : CleanupEvent) (o : CleanupOracle)
    (startMs fuel : ℕ) (h : ev.knowledgeBaseId ≠ "") :
    (∀ msg, (handler ev o startMs fuel).result ≠ HandlerResult.threw msg) ∧
      ∀ b, (handler ev o startMs fuel).result = HandlerResult.returned b → b = true := by
  rcases handler_result_cases ev o startMs fuel h with hr | hr
  · refine ⟨fun msg hmsg => ?_, fun b hb => ?_⟩
    · rw [hr] at hmsg
      cases hmsg
    · rw [hr] at hb
      injection hb with hb'
      exact hb'.symm
  · refine ⟨fun msg hmsg => ?_, fun b hb => ?_⟩
    · rw [hr] at hmsg
      cases hmsg
    · rw [hr] at hb
      cases hb

/-- C1 witness: a run with a zero-minute budget whose knowledge-base
confirmation times out internally still yields the success indicator. -/
theorem c1_witness :
    (⟨"kb", none, none, some 0⟩ : CleanupEvent).knowledgeBaseId ≠ "" ∧
      ((∀ msg, (handler ⟨"kb", none, none, some 0⟩ quietOracle 0 1).result ≠
          HandlerResult.threw msg) ∧
        ∀ b, (handler ⟨"kb", none, none, some 0⟩ quietOracle 0 1).result =
          HandlerResult.returned b → b = true) :=
  ⟨by decide, c1_handler_always_ok ⟨"kb", none, none, some 0⟩ quietOracle 0 1 (by decide)⟩

/-! ### C2 -/

/-- C2 counterexample: the loop body sleeps `backoffDelay(attempt)` without
clamping to the remaining budget.  With deadline 1500 ms and zero jitter the
second sleep starts at 1000 ms (before the deadline) and lasts 2000 ms,
ending at 3000 ms — the loop does sleep past its deadline. -/
theorem c2_counterexample :
    Ev.slept 1000 2000 ∈ (waitUntil (fun _ => Except.ok false) (fun b => b) 1500
        (fun _ => 0) Ev.getDataSource 3 0).trace ∧
      (waitUntil (fun _ => Except.ok false) (fun b => b) 1500 (fun _ => 0)
        Ev.getDataSource 3 0).result = WaitResult.timeout ∧
      1000 < 1500 ∧ 1500 < 1000 + 2000 := by
  have hw : (waitUntil (fun _ => Except.ok false) (fun b => b) 1500 (fun _ => 0)
      Ev.getDataSource 3 0) =
      ⟨.timeout, 2,
        [.getDataSource, .slept 0 1000, .getDataSource, .slept 1000 2000], 3000⟩ := by
    unfold waitUntil
    norm_num [waitUntilAux, attemptDone, backoffDelay_one, backoffDelay_two]
  refine ⟨?_, ?_, by norm_num, by norm_num⟩
  · rw [hw]
    simp
  · rw [hw]

/-- C2 (amended): `waitUntil` may sleep past its deadline (sleep lengths are
not clamped to the remaining budget), but the timeout error is raised only
when the clock has reached or passed the deadline, never earlier. -/
theorem c2_timeout_not_early {α : Type} (fn : ℕ → Except AwsError α)
    (pred : α → Bool) (deadlineMs : ℕ) (jit : ℕ → ℚ) (callEv : Ev)
    (fuel startMs : ℕ)
    (h : (waitUntil fn pred deadlineMs jit callEv fuel startMs).result =
      WaitResult.timeout) :
    deadlineMs ≤ (waitUntil fn pred deadlineMs jit callEv fuel startMs).endMs :=
  waitUntilAux_timeout_le fn pred deadlineMs jit callEv fuel 0 startMs h

/-- C2 witness: a run entered at clock 7 with deadline 5 times out, and the
clock at the throw is indeed past the deadline. -/
theorem c2_witness :
    (waitUntil (fun _ => Except.ok false) (fun b => b) 5 (fun _ => 0)
        Ev.getKnowledgeBase 1 7).result = WaitResult.timeout ∧
      5 ≤ (waitUntil (fun _ => Except.ok false) (fun b => b) 5 (fun _ => 0)
        Ev.getKnowledgeBase 1 7).endMs :=
  ⟨by decide, c2_timeout_not_early (fun _ => Except.ok false) (fun b => b) 5
    (fun _ => 0) Ev.getKnowledgeBase 1 7 (by decide)⟩

/-! ### C3 -/

/-- C3: when the resolution candidate set (prefix matches, or the whole
listing without a prefix) has zero or several entries, no `DeleteDataSource`
call is ever issued, and the knowledge-base deletion phase still proceeds
(its `DeleteKnowledgeBase` call appears in the trace). -/
theorem c3_skip_on_no_unique_match (ev : CleanupEvent) (o : CleanupOracle)
    (startMs fuel : ℕ) (l : List DSSummary) (h0 : ev.knowledgeBaseId ≠ "")
    (hl : o.listDS = .ok l) (hn : (matchingOf l ev.dataSourceNamePre).length ≠ 1) :
    Ev.deleteDataSource ∉ (handler ev o startMs fuel).trace ∧
      Ev.deleteKnowledgeBase ∈ (handler ev o startMs fuel).trace := by
  have hres : resolveDataSourceId o.listDS ev.dataSourceNamePre = .ok none := by
    rw [hl]
    exact resolveDataSourceId_ok_of_not_single l _ hn
  rw [handler_trace ev o startMs fuel h0, innerRun_ok_none ev o startMs _ fuel hres]
  constructor
  · intro hmem
    rcases List.mem_cons.mp hmem with h | h
    · simp at h
    · rcases kbPhase_trace_mem _ _ _ _ _ h with h' | h' | h' | ⟨s, d, h'⟩ <;> simp at h'
  · exact List.mem_cons_of_mem _ (kbPhase_deleteKB_mem o _ fuel startMs)

/-- C3 witness: an empty listing with a prefix filter — zero matches — skips
the data-source delete and still issues the knowledge-base delete. -/
theorem c3_witness :
    (⟨"kb", some "ds-", none, some 0⟩ : CleanupEvent).knowledgeBaseId ≠ "" ∧
      quietOracle.listDS = .ok [] ∧
      (matchingOf [] (⟨"kb", some "ds-", none, some 0⟩ :
        CleanupEvent).dataSourceNamePre).length ≠ 1 ∧
      (Ev.deleteDataSource ∉
          (handler ⟨"kb", some "ds-", none, some 0⟩ quietOracle 0 1).trace ∧
        Ev.deleteKnowledgeBase ∈
          (handler ⟨"kb", some "ds-", none, some 0⟩ quietOracle 0 1).trace) :=
  ⟨by decide, rfl, by decide,
    c3_skip_on_no_unique_match ⟨"kb", some "ds-", none, some 0⟩ quietOracle 0 1 []
      (by decide) rfl (by decide)⟩

/-! ### C4 -/

/-- C4: every `waitUntil` call site inside one handler invocation receives
the single absolute deadline computed at the start of the invocation:
`startMs + (maxMinutes ?? 15) * 60000`.  No phase recomputes or extends it. -/
theorem c4_single_shared_deadline (ev : CleanupEvent) (o : CleanupOracle)
    (startMs fuel : ℕ) (desc : String) (d : ℕ) (h0 : ev.knowledgeBaseId ≠ "")
    (h : Ev.waitCall desc d ∈ (handler ev o startMs fuel).trace) :
    d = startMs + ev.maxMinutes.getD 15 * 60000 := by
  rw [handler_trace ev o startMs fuel h0] at h
  rcases innerRun_trace_mem ev o startMs _ fuel _ h with
    h' | h' | h' | h' | h' | h' | h' | h' | h' | ⟨s, dd, h'⟩
  all_goals first
    | (injection h' with h1 h2; exact h2)
    | injection h'
    | simp at h'

/-- C4 witness: with `maxMinutes = 0` and start clock 100, the
knowledge-base confirmation loop is entered with deadline exactly
`100 + 0 * 60000`. -/
theorem c4_witness :
    (⟨"kb", none, none, some 0⟩ : CleanupEvent).knowledgeBaseId ≠ "" ∧
      Ev.waitCall kbDesc 100 ∈
        (handler ⟨"kb", none, none, some 0⟩ quietOracle 100 1).trace ∧
      100 = 100 + (⟨"kb", none, none, some 0⟩ :
        CleanupEvent).maxMinutes.getD 15 * 60000 :=
  ⟨by decide, by decide,
    c4_single_shared_deadline ⟨"kb", none, none, some 0⟩ quietOracle 100 1 kbDesc 100
      (by decide) (by decide)⟩

/-! ### C5 -/

/-- C5: during a confirm-gone poll (data source or knowledge base), (i) a get
error that is not a not-found error is converted to "not yet gone" — the
body never throws, so polling is never aborted by such an error, and (ii)
when the clock is still before the deadline such an attempt simply continues
the loop; (iii) the poll completes successfully only with `gone = true`,
which requires some get attempt to have reported a not-found error; (iv) the
only failing outcome is the timeout, raised with the clock at or past the
deadline. -/
theorem c5_confirm_poll_optimistic (g : ℕ → GetOutcome) (jit : ℕ → ℚ) (callEv : Ev)
    (deadlineMs fuel attempt t : ℕ) :
    (∀ e, isNotFoundError e = false →
        confirmStep (GetOutcome.err e) = Except.ok false) ∧
      (∀ fuel2 a2 t2, t2 < deadlineMs → isNotFoundGet (g a2) = false →
        (waitUntilAux (confirmFn g) (fun gone => gone) deadlineMs jit callEv
            (fuel2 + 1) a2 t2).result =
          (waitUntilAux (confirmFn g) (fun gone => gone) deadlineMs jit callEv
            fuel2 (a2 + 1)
            (t2 + (backoffDelay (a2 + 1) 1000 10000 (jit (a2 + 1))).toNat)).result) ∧
      (∀ x, (waitUntilAux (confirmFn g) (fun gone => gone) deadlineMs jit callEv
          fuel attempt t).result = .ok x →
        x = true ∧ ∃ k e, g k = GetOutcome.err e ∧ isNotFoundError e = true) ∧
      ((waitUntilAux (confirmFn g) (fun gone => gone) deadlineMs jit callEv
          fuel attempt t).result = .timeout →
        deadlineMs ≤ (waitUntilAux (confirmFn g) (fun gone => gone) deadlineMs jit
          callEv fuel attempt t).endMs) := by
  refine ⟨?_, ?_, ?_, ?_⟩
  · intro e he
    simp [confirmStep, he]
  · intro fuel2 a2 t2 ht hg
    have hstep : attemptDone (confirmFn g a2) (fun gone => gone) = none := by
      simp only [confirmFn]
      rw [confirmStep_eq, hg]
      simp [attemptDone]
    conv_lhs => rw [waitUntilAux]
    rw [if_pos ht, hstep]
  · intro x hx
    exact confirm_ok_notFound g deadlineMs fuel attempt t jit callEv x hx
  · exact waitUntilAux_timeout_le (confirmFn g) (fun gone => gone) deadlineMs jit
      callEv fuel attempt t

/-- C5 witness: a get oracle that always reports `ResourceNotFoundException`
makes the confirm poll succeed at the first attempt, and indeed some attempt
reported a not-found error. -/
theorem c5_witness :
    (waitUntilAux (confirmFn goneGetOracle) (fun gone => gone) 5 (fun _ => 0)
        Ev.getDataSource 1 0 0).result = .ok true ∧
      (true = true ∧ ∃ k e, goneGetOracle k = GetOutcome.err e ∧
        isNotFoundError e = true) :=
  ⟨by decide,
    (c5_confirm_poll_optimistic goneGetOracle (fun _ => 0) Ev.getDataSource 5 1 0
      0).2.2.1 true (by decide)⟩

/-! ### C6 -/

/-- C6: a delete failing with a not-found error is treated exactly as a
successful delete — `tolerantDelete` absorbs it, the handler run (result,
trace and time alike) is identical to the run where the delete succeeded,
for the data source and the knowledge base both — while a delete failing
with any other error is re-thrown. -/
theorem c6_delete_idempotent (ev : CleanupEvent) (o : CleanupOracle)
    (startMs fuel : ℕ) (e : AwsError) (hnf : isNotFoundError e = true) :
    tolerantDelete (.err e) = .ok () ∧
      (∀ e', isNotFoundError e' = false → tolerantDelete (.err e') = .error e') ∧
      handler ev { o with deleteDS := .err e } startMs fuel =
        handler ev { o with deleteDS := .ok } startMs fuel ∧
      handler ev { o with deleteKB := .err e } startMs fuel =
        handler ev { o with deleteKB := .ok } startMs fuel := by
  have htd : tolerantDelete (.err e) = tolerantDelete .ok := by
    simp [tolerantDelete, hnf]
  refine ⟨by simp [tolerantDelete, hnf], ?_, ?_, ?_⟩
  · intro e' he'
    simp [tolerantDelete, he']
  · exact handler_tolerant_congr ev o.listDS o.listJobs o.jobsJit (.err e) .ok
      o.getDS o.dsJit o.deleteKB o.deleteKB o.getKB o.kbJit htd rfl startMs fuel
  · exact handler_tolerant_congr ev o.listDS o.listJobs o.jobsJit o.deleteDS
      o.deleteDS o.getDS o.dsJit (.err e) .ok o.getKB o.kbJit rfl htd startMs fuel

/-- C6 witness: with the concrete not-found error `ResourceNotFoundException`,
the tolerated-delete law and both handler-level idempotence equations hold at
a concrete event and environment. -/
theorem c6_witness :
    isNotFoundError ⟨"", "ResourceNotFoundException"⟩ = true ∧
      (tolerantDelete (.err ⟨"", "ResourceNotFoundException"⟩) = .ok () ∧
        (∀ e', isNotFoundError e' = false →
          tolerantDelete (.err e') = .error e') ∧
        handler ⟨"kb", none, none, some 0⟩
            { quietOracle with deleteDS := .err ⟨"", "ResourceNotFoundException"⟩ } 0 1 =
          handler ⟨"kb", none, none, some 0⟩ { quietOracle with deleteDS := .ok } 0 1 ∧
        handler ⟨"kb", none, none, some 0⟩
            { quietOracle with deleteKB := .err ⟨"", "ResourceNotFoundException"⟩ } 0 1 =
          handler ⟨"kb", none, none, some 0⟩ { quietOracle with deleteKB := .ok } 0 1) :=
  ⟨by decide,
    c6_delete_idempotent ⟨"kb", none, none, some 0⟩ quietOracle 0 1
      ⟨"", "ResourceNotFoundException"⟩ (by decide)⟩

/-! ### C7 -/

/-- The absolute deadline the handler computes once at entry. -/
def handlerDeadline (ev : CleanupEvent) (startMs : ℕ) : ℕ :=
  startMs + ev.maxMinutes.getD 15 * 60000

/-- Step 2's wait loop (ingestion jobs idle). -/
def jobsWait (o : CleanupOracle) (deadlineMs fuel t : ℕ) : WaitOut Bool :=
  waitUntil (jobsFn o) (fun active => !active) deadlineMs o.jobsJit
    .listIngestionJobs fuel t

/-- Step 3's confirmation loop (data source gone). -/
def dsConfirmWait (o : CleanupOracle) (deadlineMs fuel t : ℕ) : WaitOut Bool :=
  waitUntil (confirmFn o.getDS) (fun gone => gone) deadlineMs o.dsJit
    .getDataSource fuel t

/-- Step 4's confirmation loop (knowledge base gone). -/
def kbConfirmWait (o : CleanupOracle) (deadlineMs fuel t : ℕ) : WaitOut Bool :=
  waitUntil (confirmFn o.getKB) (fun gone => gone) deadlineMs o.kbJit
    .getKnowledgeBase fuel t

/-- C7: with a uniquely resolved data source, (i) a `DeleteKnowledgeBase`
call can only appear after the data-source confirmation loop succeeded, i.e.
only once some `GetDataSource` attempt reported a not-found error; (ii) on a
fully successful run the trace is exactly the strictly sequential
concatenation: ingestion-jobs wait, `DeleteDataSource`, data-source
confirmation, `DeleteKnowledgeBase`, knowledge-base confirmation. -/
theorem c7_sequential_phases (ev : CleanupEvent) (o : CleanupOracle)
    (startMs fuel : ℕ) (dsId : String) (h0 : ev.knowledgeBaseId ≠ "")
    (hne : dsId ≠ "")
    (hres : resolveDataSourceId o.listDS ev.dataSourceNamePre = .ok (some dsId)) :
    (Ev.deleteKnowledgeBase ∈ (handler ev o startMs fuel).trace →
      ∃ k e, o.getDS k = GetOutcome.err e ∧ isNotFoundError e = true) ∧
      ((innerRun ev o startMs (handlerDeadline ev startMs) fuel).result =
          InnerResult.done →
        (handler ev o startMs fuel).trace =
          Ev.listDataSources ::
            Ev.waitCall jobsDesc (handlerDeadline ev startMs) ::
            ((jobsWait o (handlerDeadline ev startMs) fuel startMs).trace ++
              Ev.deleteDataSource ::
              Ev.waitCall dsDesc (handlerDeadline ev startMs) ::
              ((dsConfirmWait o (handlerDeadline ev startMs) fuel
                  (jobsWait o (handlerDeadline ev startMs) fuel startMs).endMs).trace ++
                Ev.deleteKnowledgeBase ::
                Ev.waitCall kbDesc (handlerDeadline ev startMs) ::
                (kbConfirmWait o (handlerDeadline ev startMs) fuel
                  (dsConfirmWait o (handlerDeadline ev startMs) fuel
                    (jobsWait o (handlerDeadline ev startMs) fuel
                      startMs).endMs).endMs).trace))) := by
  constructor
  · intro hmem
    rw [handler_trace ev o startMs fuel h0,
      innerRun_ok_some ev o startMs _ fuel dsId hne hres] at hmem
    rcases List.mem_cons.mp hmem with h | h
    · simp at h
    · exact childThenKb_deleteKB_confirm o _ fuel startMs h
  · intro hdone
    rw [handler_trace ev o startMs fuel h0]
    simp only [handlerDeadline] at hdone ⊢
    rw [innerRun_ok_some ev o startMs _ fuel dsId hne hres] at hdone ⊢
    dsimp only at hdone ⊢
    unfold childThenKb at hdone ⊢
    dsimp only at hdone ⊢
    simp only [jobsWait, dsConfirmWait, kbConfirmWait]
    cases h1 : (waitUntil (jobsFn o) (fun active => !active)
        (startMs + ev.maxMinutes.getD 15 * 60000) o.jobsJit
        .listIngestionJobs fuel startMs).result with
    | fuelOut =>
      rw [h1] at hdone
      simp at hdone
    | timeout =>
      rw [h1] at hdone
      simp at hdone
    | ok a1 =>
      rw [h1] at hdone
      dsimp only at hdone ⊢
      cases h2 : tolerantDelete o.deleteDS with
      | error e' =>
        rw [h2] at hdone
        simp at hdone
      | ok u =>
        rw [h2] at hdone
        dsimp only at hdone ⊢
        cases h3 : (waitUntil (confirmFn o.getDS) (fun gone => gone)
            (startMs + ev.maxMinutes.getD 15 * 60000) o.dsJit .getDataSource fuel
            (waitUntil (jobsFn o) (fun active => !active)
              (startMs + ev.maxMinutes.getD 15 * 60000) o.jobsJit
              .listIngestionJobs fuel startMs).endMs).result with
        | fuelOut =>
          rw [h3] at hdone
          simp at hdone
        | timeout =>
          rw [h3] at hdone
          simp at hdone
        | ok a2 =>
          rw [h3] at hdone
          dsimp only at hdone ⊢
          unfold kbPhase at hdone ⊢
          cases h4 : tolerantDelete o.deleteKB with
          | error e'' =>
            rw [h4] at hdone
            simp at hdone
          | ok u' =>
            simp

/-- An environment with exactly one data source matching the filter, no
active ingestion jobs, successful deletes, and gets that report the
resources gone. -/
def c7Oracle : CleanupOracle :=
  ⟨.ok [⟨some "ds-1", "DSID"⟩], fun _ => .ok [], fun _ => 0, .ok, goneGetOracle,
    fun _ => 0, .ok, goneGetOracle, fun _ => 0⟩

/-- C7 witness: in the unique-resolution scenario that reaches
`DeleteKnowledgeBase`, some `GetDataSource` attempt had reported not-found. -/
theorem c7_witness :
    (⟨"kb", some "ds-", none, some 1⟩ : CleanupEvent).knowledgeBaseId ≠ "" ∧
      resolveDataSourceId c7Oracle.listDS (⟨"kb", some "ds-", none, some 1⟩ :
        CleanupEvent).dataSourceNamePre = .ok (some "DSID") ∧
      Ev.deleteKnowledgeBase ∈
        (handler ⟨"kb", some "ds-", none, some 1⟩ c7Oracle 0 1).trace ∧
      ∃ k e, c7Oracle.getDS k = GetOutcome.err e ∧ isNotFoundError e = true :=
  ⟨by decide, by rfl, by decide,
    (c7_sequential_phases ⟨"kb", some "ds-", none, some 1⟩ c7Oracle 0 1 "DSID"
      (by decide) (by decide) (by rfl)).1 (by decide)⟩

/-! ### C8 -/

/-- C8: for every attempt and every jitter draw in `[0, 1)` — the range of
`Math.random()` — the computed delay is never negative and never exceeds the
ceiling `maxMs`; the pre-jitter schedule grows monotonically with the
attempt number and is itself capped at `maxMs`. -/
theorem c8_backoff_bounded (attempt baseMs maxMs : ℕ) (r : ℚ)
    (h0 : 0 ≤ r) (h1 : r < 1) :
    0 ≤ backoffDelay attempt baseMs maxMs r ∧
      backoffDelay attempt baseMs maxMs r ≤ (maxMs : ℤ) ∧
      expPart attempt baseMs maxMs ≤ expPart (attempt + 1) baseMs maxMs ∧
      expPart attempt baseMs maxMs ≤ maxMs := by
  have hfac0 : (0 : ℚ) ≤ 1 / 2 + r * (1 / 2) := by linarith
  have hfac1 : (1 / 2 + r * (1 / 2) : ℚ) ≤ 1 := by linarith
  have hexp0 : (0 : ℚ) ≤ (expPart attempt baseMs maxMs : ℚ) := by positivity
  refine ⟨?_, ?_, ?_, ?_⟩
  · exact Int.floor_nonneg.mpr (mul_nonneg hexp0 hfac0)
  · have hle : (expPart attempt baseMs maxMs : ℚ) * (1 / 2 + r * (1 / 2)) ≤
        (expPart attempt baseMs maxMs : ℚ) :=
      mul_le_of_le_one_right hexp0 hfac1
    have hcap : (expPart attempt baseMs maxMs : ℚ) ≤ (maxMs : ℚ) := by
      exact_mod_cast min_le_left maxMs (baseMs * 2 ^ attempt)
    calc backoffDelay attempt baseMs maxMs r
        ≤ ⌊(maxMs : ℚ)⌋ := Int.floor_le_floor (le_trans hle hcap)
      _ = (maxMs : ℤ) := Int.floor_natCast maxMs
  · exact min_le_min le_rfl
      (Nat.mul_le_mul_left baseMs (Nat.pow_le_pow_right (by norm_num) (Nat.le_succ attempt)))
  · exact min_le_left maxMs (baseMs * 2 ^ attempt)

/-- C8 witness: at attempt 3 with jitter draw 1/3 (and the source's default
base 1000 ms and ceiling 10000 ms) the bounds hold. -/
theorem c8_witness :
    (0 : ℚ) ≤ 1 / 3 ∧ (1 / 3 : ℚ) < 1 ∧
      (0 ≤ backoffDelay 3 1000 10000 (1 / 3) ∧
        backoffDelay 3 1000 10000 (1 / 3) ≤ (10000 : ℤ) ∧
        expPart 3 1000 10000 ≤ expPart 4 1000 10000 ∧
        expPart 3 1000 10000 ≤ 10000) :=
  ⟨by norm_num, by norm_num,
    c8_backoff_bounded 3 1000 10000 (1 / 3) (by norm_num) (by norm_num)⟩

/-! ### C9 -/

/-- C9: when the `ListDataSources` call itself fails with a not-found error
(knowledge base already gone), resolution yields `none`, every child phase
is skipped (no `ListIngestionJobs`, `DeleteDataSource` or `GetDataSource`
call ever happens), the handler proceeds directly to the knowledge-base
deletion (its `DeleteKnowledgeBase` call is in the trace), and no error
escapes the handler. -/
theorem c9_list_notFound_skips_child (ev : CleanupEvent) (o : CleanupOracle)
    (startMs fuel : ℕ) (e : AwsError) (h0 : ev.knowledgeBaseId ≠ "")
    (hl : o.listDS = .error e) (hnf : isNotFoundError e = true) :
    resolveDataSourceId o.listDS ev.dataSourceNamePre = .ok none ∧
      Ev.deleteDataSource ∉ (handler ev o startMs fuel).trace ∧
      Ev.getDataSource ∉ (handler ev o startMs fuel).trace ∧
      Ev.listIngestionJobs ∉ (handler ev o startMs fuel).trace ∧
      Ev.deleteKnowledgeBase ∈ (handler ev o startMs fuel).trace ∧
      ∀ msg, (handler ev o startMs fuel).result ≠ HandlerResult.threw msg := by
  have hres : resolveDataSourceId o.listDS ev.dataSourceNamePre = .ok none := by
    rw [hl]
    exact resolveDataSourceId_notFound e _ hnf
  have htrace : (handler ev o startMs fuel).trace =
      Ev.listDataSources ::
        (kbPhase o (startMs + ev.maxMinutes.getD 15 * 60000) fuel startMs).trace := by
    rw [handler_trace ev o startMs fuel h0, innerRun_ok_none ev o startMs _ fuel hres]
  refine ⟨hres, ?_, ?_, ?_, ?_, ?_⟩
  · rw [htrace]
    intro hmem
    rcases List.mem_cons.mp hmem with h | h
    · simp at h
    · rcases kbPhase_trace_mem _ _ _ _ _ h with h' | h' | h' | ⟨s, d, h'⟩ <;> simp at h'
  · rw [htrace]
    intro hmem
    rcases List.mem_cons.mp hmem with h | h
    · simp at h
    · rcases kbPhase_trace_mem _ _ _ _ _ h with h' | h' | h' | ⟨s, d, h'⟩ <;> simp at h'
  · rw [htrace]
    intro hmem
    rcases List.mem_cons.mp hmem with h | h
    · simp at h
    · rcases kbPhase_trace_mem _ _ _ _ _ h with h' | h' | h' | ⟨s, d, h'⟩ <;> simp at h'
  · rw [htrace]
    exact List.mem_cons_of_mem _ (kbPhase_deleteKB_mem o _ fuel startMs)
  · intro msg hmsg
    rcases handler_result_cases ev o startMs fuel h0 with hr | hr <;>
      rw [hr] at hmsg <;> cases hmsg

/-- The environment of a teardown whose knowledge base is already gone: the
listing itself reports `ResourceNotFoundException`. -/
def c9Oracle : CleanupOracle :=
  { quietOracle with listDS := .error ⟨"", "ResourceNotFoundException"⟩ }

/-- C9 witness: with a listing that throws `ResourceNotFoundException`, the
child phases are skipped and the knowledge-base delete is still issued. -/
theorem c9_witness :
    (⟨"kb", some "ds-", none, some 0⟩ : CleanupEvent).knowledgeBaseId ≠ "" ∧
      c9Oracle.listDS = .error ⟨"", "ResourceNotFoundException"⟩ ∧
      isNotFoundError ⟨"", "ResourceNotFoundException"⟩ = true ∧
      (resolveDataSourceId c9Oracle.listDS (⟨"kb", some "ds-", none, some 0⟩ :
          CleanupEvent).dataSourceNamePre = .ok none ∧
        Ev.deleteDataSource ∉
          (handler ⟨"kb", some "ds-", none, some 0⟩ c9Oracle 0 1).trace ∧
        Ev.getDataSource ∉
          (handler ⟨"kb", some "ds-", none, some 0⟩ c9Oracle 0 1).trace ∧
        Ev.listIngestionJobs ∉
          (handler ⟨"kb", some "ds-", none, some 0⟩ c9Oracle 0 1).trace ∧
        Ev.deleteKnowledgeBase ∈
          (handler ⟨"kb", some "ds-", none, some 0⟩ c9Oracle 0 1).trace ∧
        ∀ msg, (handler ⟨"kb", some "ds-", none, some 0⟩ c9Oracle 0 1).result ≠
          HandlerResult.threw msg) :=
  ⟨by decide, by rfl, by decide,
    c9_list_notFound_skips_child ⟨"kb", some "ds-", none, some 0⟩ c9Oracle 0 1
      ⟨"", "ResourceNotFoundException"⟩ (by decide) (by rfl) (by decide)⟩

/-! ### C10 -/

/-- C10 counterexample: the validation branches are an `else-if` chain, so
for an ARN containing both the v2 and the v1 marker, only the v2 rule is
applied.  With dimension 1024 the claim's plain-disjunction iff demands a
throw (its second disjunct holds: the ARN contains the v1 marker and
1024 ≠ 1536), yet validation succeeds and the constructor defines the full
resource set. -/
theorem c10_counterexample :
    validateModelDimensionCompatibility
        "titan-embed-text-v2titan-embed-text-v1" 1024 = .ok () ∧
      strContains "titan-embed-text-v2titan-embed-text-v1" "titan-embed-text-v1" =
        true ∧
      (1024 : ℕ) ≠ 1536 ∧
      (constructModel ⟨false, false, some 1024,
        some "titan-embed-text-v2titan-embed-text-v1"⟩ "us-east-1").errorMsg = none := by
  refine ⟨by rfl, by decide, by decide, by rfl⟩

/-- C10 (amended): validation throws if and only if the ARN contains the v2
marker and the dimension is not 1024, or the ARN does not contain the v2
marker but contains the v1 marker and the dimension is not 1536, or it
contains neither marker and the dimension is neither 1024 nor 1536; and a
failed validation yields a constructor outcome in which no resource
construct was defined. -/
theorem c10_validation_guards_constructor (arn : String) (dim : ℕ)
    (props : ConstructProps) (region : String) :
    ((∃ msg, validateModelDimensionCompatibility arn dim = .error msg) ↔
        ((strContains arn "titan-embed-text-v2" = true ∧ dim ≠ 1024) ∨
          (strContains arn "titan-embed-text-v2" = false ∧
            strContains arn "titan-embed-text-v1" = true ∧ dim ≠ 1536) ∨
          (strContains arn "titan-embed-text-v2" = false ∧
            strContains arn "titan-embed-text-v1" = false ∧
            dim ≠ 1024 ∧ dim ≠ 1536))) ∧
      ((constructModel props region).errorMsg.isSome = true →
        (constructModel props region).definedResources = []) := by
  constructor
  · unfold validateModelDimensionCompatibility
    split_ifs with h1 h2 h3 h4 h5 <;> simp_all
  · intro hsome
    unfold constructModel at hsome ⊢
    dsimp only at hsome ⊢
    cases hv : validateModelDimensionCompatibility
        ((props.embeddingModelArn).getD (getEmbeddingModelArn region))
        ((props.vectorDimension).getD 1024) with
    | error m => simp [hv]
    | ok u =>
      rw [hv] at hsome
      simp at hsome

/-- C10 witness: a model ARN with neither marker and dimension 7 fails
validation, and the constructor outcome defines no resources at all. -/
theorem c10_witness :
    (constructModel ⟨false, false, some 7, some "arn:model-x"⟩
        "us-east-1").errorMsg.isSome = true ∧
      (constructModel ⟨false, false, some 7, some "arn:model-x"⟩
        "us-east-1").definedResources = [] :=
  ⟨by rfl,
    (c10_validation_guards_constructor "arn:model-x" 7
      ⟨false, false, some 7, some "arn:model-x"⟩ "us-east-1").2 (by rfl)⟩
